import Mathlib

/-!
# Verification of the `gro` Block/Wrapper binding layer

Shallow embedding of `src/gro/core.py`.  The layer is a thin shim over the
Gradio widget framework: `Wrapper` proxies one widget (lazy instantiation,
recorded event-listener specs, optional data source) and `Block` discovers
`Wrapper`-valued attributes, runs the subclass `layout()`, wires listeners
(chaining repeated listeners for one event through the `.then` handle of the
previous registration) and registers a load handler for data sources.

Modelling conventions:
* Wrapper objects live in a store (`List Wrapper`); Python object references
  become `Nat` indices into that store, so shared mutation and aliasing are
  represented faithfully.
* Gradio widget instances and framework handles are opaque; they are modelled
  by `Nat` identifiers allocated from counters.
* Python exceptions become `Except GroError`; an exception anywhere aborts the
  surrounding computation, matching unhandled propagation in the source.
* `dir(self)` enumeration is taken as a given ordered association list of
  attribute names and values; the source only relies on it being a stable
  enumeration within one run.
* The final `block.launch(...)` call and everything behind the Gradio API
  boundary (rendering, transport, the event loop) are outside the embedding.
-/

namespace Gro

/-- A Gradio widget class: all the shim reads from it is its static `EVENTS`
collection of event names (plus the ability to construct instances, modelled
by fresh widget ids). -/
structure WidgetClass where
  events : List String
  deriving DecidableEq

/-- An entry of a listener spec's `inputs`/`outputs` list: application code
passes `Wrapper` references (store indices); wiring replaces them by the
instantiated Gradio widgets (widget ids). -/
inductive Ref where
  | wrapperRef (i : Nat)
  | widgetRef (w : Nat)
  deriving DecidableEq

/-- The kwargs dict passed to an event binder: the `inputs` and `outputs`
keys (present iff `some`), plus all remaining passthrough options, kept
opaque as string pairs (`fn`, `show_progress`, ...). -/
structure ListenerSpec where
  inputs : Option (List Ref)
  outputs : Option (List Ref)
  others : List (String × String)
  deriving DecidableEq

/-- The Python exception classes this layer can raise. -/
inductive GroError where
  | notImplementedError
  | attributeError
  | typeError
  | indexError
  deriving DecidableEq

/-- `Wrapper` state (`Wrapper.__init__` fields plus `gr_object`, which is an
absent attribute — `none` — until `__call__` assigns it). `_source` holds a
zero-argument callable, modelled as a function identifier to be interpreted
by an environment at call time. -/
structure Wrapper where
  gr_object_cls : WidgetClass
  init_kwargs : List (String × String)
  listeners : List (String × List ListenerSpec)
  _source : Option Nat
  gr_object : Option Nat
  deriving DecidableEq

/-- `Wrapper.__init__(gr_object_cls, **kwargs)`. -/
def Wrapper.init (cls : WidgetClass) (kwargs : List (String × String)) : Wrapper :=
  { gr_object_cls := cls, init_kwargs := kwargs, listeners := [], _source := none,
    gr_object := none }

/-- `self.listeners.setdefault(name, []).append(kwargs)` on an
insertion-ordered dict represented as an association list. -/
def setdefaultAppend : List (String × List ListenerSpec) → String → ListenerSpec →
    List (String × List ListenerSpec)
  | [], name, kwargs => [(name, [kwargs])]
  | (e, specs) :: rest, name, kwargs =>
    if e = name then (e, specs ++ [kwargs]) :: rest
    else (e, specs) :: setdefaultAppend rest name kwargs

/-- The body of the closure returned by `Wrapper.bind_factory(name)`: one call
of the binder with keyword arguments `kwargs`. -/
def Wrapper.bind (w : Wrapper) (name : String) (kwargs : ListenerSpec) : Wrapper :=
  { w with listeners := setdefaultAppend w.listeners name kwargs }

/-- What attribute access on a `Wrapper` can produce: an ordinary attribute
found by normal lookup, or the event binder synthesized by `__getattr__`. -/
inductive AttrResult where
  | existing
  | binder (event : String)
  deriving DecidableEq

/-- `Wrapper.__getattr__(name)`: called only when normal lookup fails; returns
`bind_factory(name)` when `name` is a declared event of the widget class, and
otherwise raises `AttributeError` (the `super().__getattr__(name)` line has no
such attribute to fall back on). -/
def Wrapper.getattr (w : Wrapper) (name : String) : Except GroError AttrResult :=
  if name ∈ w.gr_object_cls.events then Except.ok (AttrResult.binder name)
  else Except.error GroError.attributeError

/-- The attribute names normal lookup finds on a `Wrapper`: the instance dict
(`gr_object` only once `__call__` has assigned it) and the methods declared on
the class. -/
def Wrapper.attrNames (w : Wrapper) : List String :=
  ["gr_object_cls", "init_kwargs", "listeners", "_source"]
    ++ (if w.gr_object.isSome then ["gr_object"] else [])
    ++ ["bind_factory", "source", "__init__", "__call__", "__getattr__"]

/-- Python attribute lookup on a `Wrapper`: normal lookup first, falling back
to `Wrapper.__getattr__` only when the name is not an existing attribute. -/
def Wrapper.getattribute (w : Wrapper) (name : String) : Except GroError AttrResult :=
  if name ∈ w.attrNames then Except.ok AttrResult.existing
  else Wrapper.getattr w name

/-- `Wrapper.source(fn)`. -/
def Wrapper.source (w : Wrapper) (fn : Nat) : Wrapper :=
  { w with _source := some fn }

/-- `Wrapper.__call__()`: `self.gr_object = self.gr_object_cls(**self.init_kwargs)`,
with the constructed widget modelled by a fresh widget id. -/
def Wrapper.call (w : Wrapper) (fresh : Nat) : Wrapper × Nat :=
  ({ w with gr_object := some fresh }, fresh + 1)

/-- The listener list recorded for an event name (empty when the event has no
entry in the dict). -/
def lookupEvent : List (String × List ListenerSpec) → String → List ListenerSpec
  | [], _ => []
  | (e, specs) :: rest, name => if e = name then specs else lookupEvent rest name

/-- The listener list a `Wrapper` holds for event `e`. -/
def Wrapper.eventSpecs (w : Wrapper) (e : String) : List ListenerSpec :=
  lookupEvent w.listeners e

/-- The value of one attribute of a `Block` instance, as seen by the
`isinstance(inst, Wrapper)` test: a `Wrapper` (store index) or anything
else. -/
inductive Attr where
  | wrapperAttr (i : Nat)
  | otherAttr
  deriving DecidableEq

/-- Dereference of a store index (a Python object reference is always valid;
the error branch is unreachable for well-formed blocks). -/
def lookupWrapper (store : List Wrapper) (i : Nat) : Except GroError Wrapper :=
  match store.get? i with
  | some w => Except.ok w
  | none => Except.error GroError.attributeError

/-- `inst.gr_object` dereference: before `__call__` the attribute is absent,
so `__getattr__` runs and raises `AttributeError`. -/
def derefWidget : Option Nat → Except GroError Nat
  | some wid => Except.ok wid
  | none => Except.error GroError.attributeError

namespace Block

/-- The discovery loop of `Block.start`:
`for name in dir(self): ... if isinstance(inst, Wrapper): append`. -/
def discover (attrs : List (String × Attr)) : List Nat :=
  attrs.foldl (fun acc p =>
    match p.2 with
    | Attr.wrapperAttr i => acc ++ [i]
    | Attr.otherAttr => acc) []

/-- Truthiness of `o._source` for the wrapper at store index `i`. -/
def hasSource (store : List Wrapper) (i : Nat) : Bool :=
  (Option.bind (store.get? i) Wrapper._source).isSome

/-- `self.dyn_reloading_instances = [o for o in self.wrapped_instances if o._source]`. -/
def dynReloading (store : List Wrapper) (instances : List Nat) : List Nat :=
  instances.filter (hasSource store)

/-- The base `Block.layout` method: unconditionally raises
`NotImplementedError`. -/
def layout : Except GroError Unit :=
  Except.error GroError.notImplementedError

/-- A subclass either leaves `layout` unoverridden (`base`) or overrides it
with a method whose effect, as far as this layer observes, is to call the
wrappers at the given store indices in order (`self.some_wrapper()` inside the
`gr.Blocks` context). -/
inductive LayoutImpl where
  | base
  | override (calls : List Nat)
  deriving DecidableEq

/-- Execute the wrapper calls an overriding `layout()` performs, allocating
widget ids from `fresh`. -/
def callWrappers : List Wrapper → Nat → List Nat → Except GroError (List Wrapper × Nat)
  | store, fresh, [] => Except.ok (store, fresh)
  | store, fresh, i :: rest =>
    match lookupWrapper store i with
    | Except.error e => Except.error e
    | Except.ok w =>
      let p := Wrapper.call w fresh
      callWrappers (store.set i p.1) p.2 rest

/-- `self.layout()` inside `Block.start`. -/
def runLayout (store : List Wrapper) (fresh : Nat) :
    LayoutImpl → Except GroError (List Wrapper × Nat)
  | LayoutImpl.base =>
    match layout with
    | Except.error e => Except.error e
    | Except.ok _ => Except.ok (store, fresh)
  | LayoutImpl.override calls => callWrappers store fresh calls

/-- Where one registration call of the wiring loop is directed: the widget's
own event-binding method (`getattr(inst.gr_object, event)`), or the `.then`
continuation of the framework handle returned by an earlier registration. -/
inductive EventTarget where
  | widgetEvent (widget : Nat) (event : String)
  | thenOf (handle : Nat)
  deriving DecidableEq

/-- One registration performed during listener wiring: the target it was
issued against, the (resolved) kwargs passed, and the framework handle it
returned (handles are allocated sequentially from a counter). -/
structure Registration where
  target : EventTarget
  spec : ListenerSpec
  handle : Nat
  deriving DecidableEq

/-- `inp.gr_object` for one entry of a spec's `inputs`/`outputs` list: a
`Wrapper` reference resolves to its instantiated widget (raising
`AttributeError` when the widget was never instantiated); a value that is
already a Gradio widget has no `gr_object` attribute and also raises. -/
def resolveRef (store : List Wrapper) : Ref → Except GroError Ref
  | Ref.wrapperRef i =>
    match lookupWrapper store i with
    | Except.error e => Except.error e
    | Except.ok w =>
      match w.gr_object with
      | some wid => Except.ok (Ref.widgetRef wid)
      | none => Except.error GroError.attributeError
  | Ref.widgetRef _ => Except.error GroError.attributeError

/-- The list comprehension `[inp.gr_object for inp in listener["inputs"]]`. -/
def resolveRefs (store : List Wrapper) : List Ref → Except GroError (List Ref)
  | [] => Except.ok []
  | r :: rest =>
    match resolveRef store r with
    | Except.error e => Except.error e
    | Except.ok r' =>
      match resolveRefs store rest with
      | Except.error e => Except.error e
      | Except.ok rest' => Except.ok (r' :: rest')

/-- The two in-place mutations
`if "inputs" in listener: listener["inputs"] = ...` and the analogous
`"outputs"` line: replace the reference lists, keep every other key. -/
def resolveSpec (store : List Wrapper) (s : ListenerSpec) : Except GroError ListenerSpec :=
  match s.inputs with
  | some refs =>
    match resolveRefs store refs with
    | Except.error e => Except.error e
    | Except.ok refs' =>
      match s.outputs with
      | some orefs =>
        match resolveRefs store orefs with
        | Except.error e => Except.error e
        | Except.ok orefs' =>
          Except.ok { s with inputs := some refs', outputs := some orefs' }
      | none => Except.ok { s with inputs := some refs' }
  | none =>
    match s.outputs with
    | some orefs =>
      match resolveRefs store orefs with
      | Except.error e => Except.error e
      | Except.ok orefs' => Except.ok { s with outputs := some orefs' }
    | none => Except.ok s

/-- The inner `for listener in listeners:` loop of `Block._init_listeners`:
resolve the spec, register it against the current `event_fn` target, then
redirect `event_fn` to `l.then` (the `.then` of the handle just returned).
Returns the mutated specs, the registrations performed, and the next free
handle id. -/
def wireSpecs (store : List Wrapper) (target : EventTarget) (counter : Nat) :
    List ListenerSpec → Except GroError (List ListenerSpec × List Registration × Nat)
  | [] => Except.ok ([], [], counter)
  | s :: rest =>
    match resolveSpec store s with
    | Except.error e => Except.error e
    | Except.ok s' =>
      match wireSpecs store (EventTarget.thenOf counter) (counter + 1) rest with
      | Except.error e => Except.error e
      | Except.ok (rest', regs, c') =>
        Except.ok (s' :: rest',
          { target := target, spec := s', handle := counter } :: regs, c')

/-- The `for event, listeners in inst.listeners.items():` loop:
`event_fn = getattr(inst.gr_object, event)` (dereferencing `gr_object`), then
the inner spec loop. -/
def wireEvents (store : List Wrapper) (grObj : Option Nat) (counter : Nat) :
    List (String × List ListenerSpec) →
    Except GroError (List (String × List ListenerSpec) × List Registration × Nat)
  | [] => Except.ok ([], [], counter)
  | (event, specs) :: rest =>
    match derefWidget grObj with
    | Except.error e => Except.error e
    | Except.ok wid =>
      match wireSpecs store (EventTarget.widgetEvent wid event) counter specs with
      | Except.error e => Except.error e
      | Except.ok (specs', regs1, c1) =>
        match wireEvents store grObj c1 rest with
        | Except.error e => Except.error e
        | Except.ok (rest', regs2, c2) =>
          Except.ok ((event, specs') :: rest', regs1 ++ regs2, c2)

/-- `Block._init_listeners`: the outer loop over `self.wrapped_instances`.
The listener dicts are mutated in place, i.e. written back into the store
entry of the wrapper being processed. -/
def _init_listeners : List Wrapper → Nat → List Nat →
    Except GroError (List Wrapper × List Registration × Nat)
  | store, counter, [] => Except.ok (store, [], counter)
  | store, counter, i :: rest =>
    match lookupWrapper store i with
    | Except.error e => Except.error e
    | Except.ok w =>
      match wireEvents store w.gr_object counter w.listeners with
      | Except.error e => Except.error e
      | Except.ok (listeners', regs1, c1) =>
        match _init_listeners (store.set i { w with listeners := listeners' }) c1 rest with
        | Except.error e => Except.error e
        | Except.ok (store', regs2, c2) => Except.ok (store', regs1 ++ regs2, c2)

/-- `o._source()` for one selected wrapper: fetch the stored callable
(calling `None` would raise `TypeError`; the selection filter prevents it). -/
def loadCall (store : List Wrapper) (i : Nat) : Except GroError Nat :=
  match lookupWrapper store i with
  | Except.error e => Except.error e
  | Except.ok w =>
    match w._source with
    | some f => Except.ok f
    | none => Except.error GroError.typeError

/-- The list comprehension `[o._source() for o in self.dyn_reloading_instances]`,
returning the ids of the source functions invoked, in order. -/
def loadCalls (store : List Wrapper) : List Nat → Except GroError (List Nat)
  | [] => Except.ok []
  | i :: rest =>
    match loadCall store i with
    | Except.error e => Except.error e
    | Except.ok f =>
      match loadCalls store rest with
      | Except.error e => Except.error e
      | Except.ok rest' => Except.ok (f :: rest')

/-- What `Block._load` returns: a bare single value, or a list of values. -/
inductive LoadResult (α : Type) where
  | single (a : α)
  | many (as : List α)
  deriving DecidableEq

/-- `Block._load`: call every selected wrapper's source and return
`outputs if len(outputs) > 1 else outputs[0]`.  `env` interprets source
function ids as their return values.  The result pairs the trace of source
functions called (in order) with the returned value; `outputs[0]` on an empty
list raises `IndexError`. -/
def _load {α : Type} (env : Nat → α) (store : List Wrapper) (dyn : List Nat) :
    Except GroError (List Nat × LoadResult α) :=
  match loadCalls store dyn with
  | Except.error e => Except.error e
  | Except.ok calls =>
    let outputs := calls.map env
    if outputs.length > 1 then Except.ok (calls, LoadResult.many outputs)
    else
      match outputs with
      | o :: _ => Except.ok (calls, LoadResult.single o)
      | [] => Except.error GroError.indexError

/-- The `outputs=[o.gr_object for o in self.dyn_reloading_instances]` argument
of the `block.load(...)` registration. -/
def loadOutputs (store : List Wrapper) : List Nat → Except GroError (List Nat)
  | [] => Except.ok []
  | i :: rest =>
    match lookupWrapper store i with
    | Except.error e => Except.error e
    | Except.ok w =>
      match derefWidget w.gr_object with
      | Except.error e => Except.error e
      | Except.ok wid =>
        match loadOutputs store rest with
        | Except.error e => Except.error e
        | Except.ok rest' => Except.ok (wid :: rest')

/-- Everything `Block.start` has set up by the time it reaches
`block.launch(...)` (the launch call itself blocks inside the framework and is
outside the embedding). -/
structure StartResult where
  store : List Wrapper
  wrapped_instances : List Nat
  dyn_reloading_instances : List Nat
  registrations : List Registration
  load_outputs : Option (List Nat)
  deriving DecidableEq

/-- `Block.start(**launch_kwargs)` up to the `block.launch` hand-off:
discovery, source partition, layout, listener wiring, and — only when some
wrapper declared a data source — registration of the load handler with the
selected wrappers' widgets as outputs. -/
def start (attrs : List (String × Attr)) (store : List Wrapper) (impl : LayoutImpl) :
    Except GroError StartResult :=
  let wrapped := discover attrs
  let dyn := dynReloading store wrapped
  match runLayout store 0 impl with
  | Except.error e => Except.error e
  | Except.ok (store1, _fresh) =>
    match _init_listeners store1 0 wrapped with
    | Except.error e => Except.error e
    | Except.ok (store2, regs, _handles) =>
      if dyn.isEmpty then
        Except.ok { store := store2, wrapped_instances := wrapped,
                    dyn_reloading_instances := dyn, registrations := regs,
                    load_outputs := none }
      else
        match loadOutputs store2 dyn with
        | Except.error e => Except.error e
        | Except.ok outs =>
          Except.ok { store := store2, wrapped_instances := wrapped,
                      dyn_reloading_instances := dyn, registrations := regs,
                      load_outputs := some outs }

end Block

/-! ## Statement-side predicates

These express the claims' properties about the embedded operations; they are
checked against the definitions above. -/

/-- Sequential chaining of a registration list: the first registration is
issued against `init` and every later one against the `.then` continuation of
the handle returned by its immediate predecessor. -/
def chainedFrom (init : Block.EventTarget) : List Block.Registration → Bool
  | [] => true
  | r :: rest => (r.target == init) && chainedFrom (Block.EventTarget.thenOf r.handle) rest

/-- The instantiated widget (if any) behind store index `i`. -/
def grAt (store : List Wrapper) (i : Nat) : Option Nat :=
  Option.bind (store.get? i) Wrapper.gr_object

/-- `r'` is the wiring-time resolution of `r`: `r` was a `Wrapper` reference
and `r'` is that wrapper's instantiated widget. -/
def refResolvedTo (store : List Wrapper) (r r' : Ref) : Bool :=
  match r with
  | Ref.wrapperRef i =>
    match grAt store i with
    | some wid => r' == Ref.widgetRef wid
    | none => false
  | Ref.widgetRef _ => false

/-- Pointwise resolution of a reference list. -/
def refsResolvedTo (store : List Wrapper) : List Ref → List Ref → Bool
  | [], [] => true
  | r :: rest, r' :: rest' => refResolvedTo store r r' && refsResolvedTo store rest rest'
  | _, _ => false

/-- Optional-field resolution: the key is present after wiring iff it was
present before, and a present list is resolved pointwise. -/
def refsOptResolvedTo (store : List Wrapper) : Option (List Ref) → Option (List Ref) → Bool
  | none, none => true
  | some rs, some rs' => refsResolvedTo store rs rs'
  | _, _ => false

/-- Extraction used to characterise discovery: the store index when the
attribute value passes the `isinstance(inst, Wrapper)` test. -/
def wrapperIdx : String × Attr → Option Nat
  | (_, Attr.wrapperAttr i) => some i
  | (_, Attr.otherAttr) => none

/-- The data-source function ids of the selected wrappers, in order. -/
def sourceIds (store : List Wrapper) (dyn : List Nat) : List Nat :=
  dyn.filterMap (fun i => Option.bind (store.get? i) Wrapper._source)

/-- C10's relation between a stored listener spec before wiring and after:
`inputs`/`outputs` entries are replaced by the referenced wrappers'
instantiated widgets and every other key is retained unchanged. -/
def specMutated (store : List Wrapper) (s s' : ListenerSpec) : Bool :=
  refsOptResolvedTo store s.inputs s'.inputs
    && refsOptResolvedTo store s.outputs s'.outputs
    && (s'.others == s.others)

/-- Pointwise `specMutated` over the spec list of one event. -/
def specsMutated (store : List Wrapper) : List ListenerSpec → List ListenerSpec → Bool
  | [], [] => true
  | s :: rest, s' :: rest' => specMutated store s s' && specsMutated store rest rest'
  | _, _ => false

/-- Pointwise mutation relation over a whole listener dict: same events in the
same order, with each spec list mutated pointwise. -/
def listenersMutated (store : List Wrapper) :
    List (String × List ListenerSpec) → List (String × List ListenerSpec) → Bool
  | [], [] => true
  | (e, specs) :: rest, (e', specs') :: rest' =>
    (e == e') && specsMutated store specs specs' && listenersMutated store rest rest'
  | _, _ => false

/-! ## Concrete fixtures used by witness theorems -/

/-- A widget class declaring two events. -/
def exCls : WidgetClass := ⟨["click", "change"]⟩

/-- A listener spec whose `inputs` references the wrapper at store index 1. -/
def exSpec1 : ListenerSpec := ⟨some [Ref.wrapperRef 1], none, [("fn", "h1")]⟩

/-- A listener spec carrying only passthrough options. -/
def exSpec2 : ListenerSpec := ⟨none, none, [("fn", "h2")]⟩

/-- An instantiated wrapper (widget id 10) with two listeners on `click`. -/
def exW0 : Wrapper := ⟨exCls, [], [("click", [exSpec1, exSpec2])], none, some 10⟩

/-- An instantiated wrapper (widget id 11) with a data source (function 3). -/
def exW1 : Wrapper := ⟨exCls, [], [], some 3, some 11⟩

/-- A two-wrapper store. -/
def exStore : List Wrapper := [exW0, exW1]

/-- `exSpec1` after wiring: the wrapper reference resolved to widget 11. -/
def exSpec1R : ListenerSpec := ⟨some [Ref.widgetRef 11], none, [("fn", "h1")]⟩

/-- The enumeration of a block owning both example wrappers. -/
def exAttrs : List (String × Attr) :=
  [("a", Attr.wrapperAttr 0), ("b", Attr.wrapperAttr 1), ("layout", Attr.otherAttr)]

/-- A store of two wrappers that both carry data sources and are
instantiated. -/
def exStore2 : List Wrapper :=
  [⟨exCls, [], [], some 3, some 20⟩, ⟨exCls, [], [], some 4, some 21⟩]

/-- `exW0` after wiring: its `click` specs resolved in place. -/
def exW0R : Wrapper := ⟨exCls, [], [("click", [exSpec1R, exSpec2])], none, some 10⟩

/-- A wrapper with a declared listener that was never called inside
`layout()` (its `gr_object` is still absent). -/
def exW0U : Wrapper := ⟨exCls, [], [("click", [exSpec2])], none, none⟩

/-- A store where wrapper 0 has listeners but was never instantiated. -/
def exStoreU : List Wrapper := [exW0U, exW1]

/-! ## Helper lemmas -/

theorem lookupEvent_setdefaultAppend_self (ls : List (String × List ListenerSpec))
    (name : String) (kwargs : ListenerSpec) :
    lookupEvent (setdefaultAppend ls name kwargs) name = lookupEvent ls name ++ [kwargs] := by
  induction ls with
  | nil => simp [setdefaultAppend, lookupEvent]
  | cons p rest ih =>
    obtain ⟨e, specs⟩ := p
    by_cases he : e = name
    · subst he
      simp [setdefaultAppend, lookupEvent]
    · simp [setdefaultAppend, lookupEvent, he, ih]

theorem lookupEvent_setdefaultAppend_ne (ls : List (String × List ListenerSpec))
    (name e : String) (kwargs : ListenerSpec) (h : e ≠ name) :
    lookupEvent (setdefaultAppend ls name kwargs) e = lookupEvent ls e := by
  induction ls with
  | nil => simp [setdefaultAppend, lookupEvent, Ne.symm h]
  | cons p rest ih =>
    obtain ⟨e', specs⟩ := p
    by_cases he' : e' = name
    · subst he'
      simp [setdefaultAppend, lookupEvent, Ne.symm h]
    · by_cases hee : e' = e
      · subst hee
        simp [setdefaultAppend, lookupEvent, he']
      · simp [setdefaultAppend, lookupEvent, he', hee, ih]

theorem discover_eq_filterMap (attrs : List (String × Attr)) :
    Block.discover attrs = attrs.filterMap wrapperIdx := by
  have gen : ∀ (l : List (String × Attr)) (acc : List Nat),
      List.foldl (fun acc p =>
        match p.2 with
        | Attr.wrapperAttr i => acc ++ [i]
        | Attr.otherAttr => acc) acc l = acc ++ l.filterMap wrapperIdx := by
    intro l
    induction l with
    | nil => intro acc; simp
    | cons p rest ih =>
      intro acc
      obtain ⟨name, a⟩ := p
      cases a with
      | wrapperAttr i => simp [wrapperIdx, ih, List.filterMap_cons]
      | otherAttr => simp [wrapperIdx, ih, List.filterMap_cons]
  simpa using gen attrs []

/-! ## Claims -/

/-- C5: for every Block subclass that does not override `layout()`, calling
`start()` fails with `NotImplementedError`, raised when the base-type
`layout()` is invoked. -/
theorem C5_unimplemented_layout (attrs : List (String × Attr)) (store : List Wrapper) :
    Block.start attrs store Block.LayoutImpl.base =
      Except.error GroError.notImplementedError ∧
    Block.layout = Except.error GroError.notImplementedError :=
  ⟨rfl, rfl⟩

/-- C8: calling `source(f)` and then `source(g)` leaves the wrapper's data
source equal to `g` — the prior source is silently replaced (last-write-wins,
no error) — and changes no other wrapper state. -/
theorem C8_source_last_write_wins (w : Wrapper) (f g : Nat) :
    Wrapper.source (Wrapper.source w f) g = { w with _source := some g } ∧
    (Wrapper.source (Wrapper.source w f) g)._source = some g ∧
    (Wrapper.source (Wrapper.source w f) g).gr_object_cls = w.gr_object_cls ∧
    (Wrapper.source (Wrapper.source w f) g).init_kwargs = w.init_kwargs ∧
    (Wrapper.source (Wrapper.source w f) g).listeners = w.listeners ∧
    (Wrapper.source (Wrapper.source w f) g).gr_object = w.gr_object :=
  ⟨rfl, rfl, rfl, rfl, rfl, rfl⟩

/-- C6: accessing a `Wrapper` attribute whose name is neither a declared
event of the wrapped widget class nor an existing attribute fails with
`AttributeError` (standard attribute-lookup failure). -/
theorem C6_unknown_attribute (w : Wrapper) (name : String)
    (h1 : name ∉ w.gr_object_cls.events) (h2 : name ∉ w.attrNames) :
    Wrapper.getattribute w name = Except.error GroError.attributeError := by
  unfold Wrapper.getattribute Wrapper.getattr
  rw [if_neg h2, if_neg h1]

/-- Witness for C6 at a concrete wrapper and the unknown name `"flub"`. -/
theorem C6_witness :
    "flub" ∉ (Wrapper.init exCls []).gr_object_cls.events ∧
    "flub" ∉ (Wrapper.init exCls []).attrNames ∧
    Wrapper.getattribute (Wrapper.init exCls []) "flub" =
      Except.error GroError.attributeError :=
  ⟨by decide, by decide, C6_unknown_attribute _ _ (by decide) (by decide)⟩

/-- C4: for a declared event name `E`, `__getattr__` returns the binder for
`E`; each binder call appends exactly one record (the given kwargs) to the
listener list for `E`, leaves every other event's list unchanged, and
repeated calls preserve declaration order. -/
theorem C4_event_binder (w : Wrapper) (E : String) (k k2 : ListenerSpec)
    (hE : E ∈ w.gr_object_cls.events) :
    Wrapper.getattr w E = Except.ok (AttrResult.binder E) ∧
    Wrapper.eventSpecs (Wrapper.bind w E k) E = Wrapper.eventSpecs w E ++ [k] ∧
    (∀ e, e ≠ E → Wrapper.eventSpecs (Wrapper.bind w E k) e = Wrapper.eventSpecs w e) ∧
    Wrapper.eventSpecs (Wrapper.bind (Wrapper.bind w E k) E k2) E =
      Wrapper.eventSpecs w E ++ [k, k2] := by
  refine ⟨?_, ?_, ?_, ?_⟩
  · unfold Wrapper.getattr
    rw [if_pos hE]
  · exact lookupEvent_setdefaultAppend_self w.listeners E k
  · intro e he
    exact lookupEvent_setdefaultAppend_ne w.listeners E e k he
  · show lookupEvent (setdefaultAppend (setdefaultAppend w.listeners E k) E k2) E = _
    rw [lookupEvent_setdefaultAppend_self, lookupEvent_setdefaultAppend_self,
      List.append_assoc]
    rfl

/-- Witness for C4 at a concrete wrapper and the event `"click"`. -/
theorem C4_witness :
    "click" ∈ (Wrapper.init exCls []).gr_object_cls.events ∧
    (Wrapper.getattr (Wrapper.init exCls []) "click" =
       Except.ok (AttrResult.binder "click") ∧
     Wrapper.eventSpecs (Wrapper.bind (Wrapper.init exCls []) "click" exSpec2) "click" =
       Wrapper.eventSpecs (Wrapper.init exCls []) "click" ++ [exSpec2] ∧
     (∀ e, e ≠ "click" →
       Wrapper.eventSpecs (Wrapper.bind (Wrapper.init exCls []) "click" exSpec2) e =
         Wrapper.eventSpecs (Wrapper.init exCls []) e) ∧
     Wrapper.eventSpecs
         (Wrapper.bind (Wrapper.bind (Wrapper.init exCls []) "click" exSpec2) "click" exSpec1)
         "click" =
       Wrapper.eventSpecs (Wrapper.init exCls []) "click" ++ [exSpec2, exSpec1]) :=
  ⟨by decide, C4_event_binder (Wrapper.init exCls []) "click" exSpec2 exSpec1 (by decide)⟩

/-- C3: discovery collects exactly the `Wrapper`-valued attributes, in
attribute-enumeration order (and, being a pure function of the enumeration,
is stable within a run); the source partition selects exactly the discovered
wrappers with a non-null data source, preserving discovery order. -/
theorem C3_discovery_partition (attrs : List (String × Attr)) (store : List Wrapper) :
    Block.discover attrs = attrs.filterMap wrapperIdx ∧
    (∀ i, i ∈ Block.discover attrs ↔ ∃ name, (name, Attr.wrapperAttr i) ∈ attrs) ∧
    Block.dynReloading store (Block.discover attrs) =
      (Block.discover attrs).filter (Block.hasSource store) ∧
    List.Sublist (Block.dynReloading store (Block.discover attrs)) (Block.discover attrs) ∧
    (∀ i, i ∈ Block.dynReloading store (Block.discover attrs) ↔
       i ∈ Block.discover attrs ∧ Block.hasSource store i = true) := by
  refine ⟨discover_eq_filterMap attrs, ?_, rfl, List.filter_sublist _,
    fun i => List.mem_filter⟩
  intro i
  rw [discover_eq_filterMap, List.mem_filterMap]
  constructor
  · rintro ⟨⟨name, a⟩, hmem, hidx⟩
    cases a with
    | wrapperAttr j =>
      simp only [wrapperIdx, Option.some.injEq] at hidx
      subst hidx
      exact ⟨name, hmem⟩
    | otherAttr => simp [wrapperIdx] at hidx
  · rintro ⟨name, hmem⟩
    exact ⟨(name, Attr.wrapperAttr i), hmem, rfl⟩

theorem wireSpecs_chain : ∀ (specs : List ListenerSpec) (store : List Wrapper)
    (target : Block.EventTarget) (counter : Nat) (specs' : List ListenerSpec)
    (regs : List Block.Registration) (c' : Nat),
    Block.wireSpecs store target counter specs = Except.ok (specs', regs, c') →
    regs.length = specs.length ∧ chainedFrom target regs = true := by
  intro specs
  induction specs with
  | nil =>
    intro store target counter specs' regs c' h
    simp only [Block.wireSpecs, Except.ok.injEq, Prod.mk.injEq] at h
    obtain ⟨h1, h2, h3⟩ := h
    subst h2
    exact ⟨by simp [← h1], rfl⟩
  | cons s rest ih =>
    intro store target counter specs' regs c' h
    simp only [Block.wireSpecs] at h
    cases hres : Block.resolveSpec store s with
    | error e => simp only [hres] at h; exact Except.noConfusion h
    | ok s' =>
      simp only [hres] at h
      cases hrec : Block.wireSpecs store (Block.EventTarget.thenOf counter) (counter + 1)
          rest with
      | error e => simp only [hrec] at h; exact Except.noConfusion h
      | ok triple =>
        obtain ⟨rest', regs0, c0⟩ := triple
        simp only [hrec, Except.ok.injEq, Prod.mk.injEq] at h
        obtain ⟨h1, h2, h3⟩ := h
        subst h2
        obtain ⟨ihl, ihc⟩ := ih store (Block.EventTarget.thenOf counter) (counter + 1)
          rest' regs0 c0 hrec
        exact ⟨by simp [ihl], by simp [chainedFrom, ihc]⟩

/-- C1: for every wrapper and event name, the wiring step registers the first
listener spec via the widget's own event-binding method and each subsequent
spec via the `.then` continuation of the handle returned by the immediately
preceding registration — a sequential chain in declaration order. -/
theorem C1_listener_chaining : ∀ (entries : List (String × List ListenerSpec))
    (store : List Wrapper) (grObj : Option Nat) (counter : Nat)
    (entries' : List (String × List ListenerSpec)) (regs : List Block.Registration)
    (c' : Nat),
    Block.wireEvents store grObj counter entries = Except.ok (entries', regs, c') →
    ∀ (event : String) (specs : List ListenerSpec), (event, specs) ∈ entries →
    ∃ wid c0 specs' eregs c1,
      grObj = some wid ∧
      Block.wireSpecs store (Block.EventTarget.widgetEvent wid event) c0 specs =
        Except.ok (specs', eregs, c1) ∧
      eregs.length = specs.length ∧
      chainedFrom (Block.EventTarget.widgetEvent wid event) eregs = true ∧
      ∃ pre post, regs = pre ++ (eregs ++ post) := by
  intro entries
  induction entries with
  | nil =>
    intro store grObj counter entries' regs c' h event specs hmem
    exact absurd hmem (List.not_mem_nil _)
  | cons p rest ih =>
    obtain ⟨e0, sp0⟩ := p
    intro store grObj counter entries' regs c' h event specs hmem
    cases grObj with
    | none => simp [Block.wireEvents, derefWidget] at h
    | some wid =>
      simp only [Block.wireEvents, derefWidget] at h
      cases hws : Block.wireSpecs store (Block.EventTarget.widgetEvent wid e0) counter
          sp0 with
      | error e => simp only [hws] at h; exact Except.noConfusion h
      | ok t1 =>
        obtain ⟨sp0', regs1, c1⟩ := t1
        simp only [hws] at h
        cases hwe : Block.wireEvents store (some wid) c1 rest with
        | error e => simp only [hwe] at h; exact Except.noConfusion h
        | ok t2 =>
          obtain ⟨rest', regs2, c2⟩ := t2
          simp only [hwe, Except.ok.injEq, Prod.mk.injEq] at h
          obtain ⟨h1, h2, h3⟩ := h
          subst h2
          rcases List.mem_cons.mp hmem with heq | hmem'
          · cases heq
            obtain ⟨hlen, hchain⟩ :=
              wireSpecs_chain sp0 store (Block.EventTarget.widgetEvent wid e0) counter
                sp0' regs1 c1 hws
            exact ⟨wid, counter, sp0', regs1, c1, rfl, hws, hlen, hchain, [], regs2, rfl⟩
          · obtain ⟨wid2, c0, specs', eregs, cx, hg2, hws2, hlen, hchain, pre, post,
              hsplit⟩ := ih store (some wid) c1 rest' regs2 c2 hwe event specs hmem'
            injection hg2 with hww
            subst hww
            refine ⟨wid, c0, specs', eregs, cx, rfl, hws2, hlen, hchain,
              regs1 ++ pre, post, ?_⟩
            rw [hsplit, List.append_assoc]

/-- Witness for C1: two `click` listeners on a concrete wrapper (widget 10);
the first registration targets the widget's `click` binding, the second the
`.then` of handle 0. -/
theorem C1_witness :
    ∃ wid c0 specs' eregs c1,
      (some 10 : Option Nat) = some wid ∧
      Block.wireSpecs exStore (Block.EventTarget.widgetEvent wid "click") c0
          [exSpec1, exSpec2] = Except.ok (specs', eregs, c1) ∧
      eregs.length = [exSpec1, exSpec2].length ∧
      chainedFrom (Block.EventTarget.widgetEvent wid "click") eregs = true ∧
      ∃ pre post,
        [({ target := Block.EventTarget.widgetEvent 10 "click", spec := exSpec1R,
            handle := 0 } : Block.Registration),
         { target := Block.EventTarget.thenOf 0, spec := exSpec2, handle := 1 }] =
          pre ++ (eregs ++ post) :=
  C1_listener_chaining [("click", [exSpec1, exSpec2])] exStore (some 10) 0
    [("click", [exSpec1R, exSpec2])]
    [⟨Block.EventTarget.widgetEvent 10 "click", exSpec1R, 0⟩,
     ⟨Block.EventTarget.thenOf 0, exSpec2, 1⟩] 2 rfl "click" [exSpec1, exSpec2]
    (by simp)

theorem loadCalls_sources : ∀ (dyn : List Nat) (store : List Wrapper),
    (∀ i ∈ dyn, Block.hasSource store i = true) →
    Block.loadCalls store dyn = Except.ok (sourceIds store dyn) ∧
    (sourceIds store dyn).length = dyn.length := by
  intro dyn
  induction dyn with
  | nil => intro store _; exact ⟨rfl, rfl⟩
  | cons i rest ih =>
    intro store hall
    have hi := hall i (List.mem_cons_self i rest)
    have hrest : ∀ j ∈ rest, Block.hasSource store j = true :=
      fun j hj => hall j (List.mem_cons_of_mem i hj)
    obtain ⟨ih1, ih2⟩ := ih store hrest
    unfold Block.hasSource at hi
    cases hgw : store.get? i with
    | none => rw [hgw] at hi; simp at hi
    | some w =>
      cases hs : w._source with
      | none => rw [hgw] at hi; simp [hs] at hi
      | some f =>
        have hcall : Block.loadCall store i = Except.ok f := by
          simp only [Block.loadCall, lookupWrapper, hgw, hs]
        have hsrc : sourceIds store (i :: rest) = f :: sourceIds store rest := by
          simp only [sourceIds, List.filterMap_cons, hgw, Option.some_bind, hs]
        constructor
        · simp only [Block.loadCalls, hcall, ih1, hsrc]
        · simp [hsrc, ih2]

/-- C2: with at least one data-source-bearing wrapper, the load handler calls
each selected wrapper's source exactly once in discovery order, and returns
the single return value (not a one-element list) when exactly one wrapper has
a source, and the ordered list of return values otherwise. -/
theorem C2_load_results {α : Type} (env : Nat → α) (store : List Wrapper)
    (attrs : List (String × Attr)) (dyn : List Nat)
    (hdyn : dyn = Block.dynReloading store (Block.discover attrs))
    (hne : dyn ≠ []) :
    (sourceIds store dyn).length = dyn.length ∧
    (dyn.length = 1 → ∃ f, sourceIds store dyn = [f] ∧
      Block._load env store dyn = Except.ok ([f], Block.LoadResult.single (env f))) ∧
    (1 < dyn.length → Block._load env store dyn =
      Except.ok (sourceIds store dyn,
        Block.LoadResult.many ((sourceIds store dyn).map env))) := by
  have hall : ∀ i ∈ dyn, Block.hasSource store i = true := by
    intro i hi
    rw [hdyn] at hi
    exact (List.mem_filter.mp hi).2
  obtain ⟨hcalls, hlen⟩ := loadCalls_sources dyn store hall
  refine ⟨hlen, ?_, ?_⟩
  · intro h1
    rw [h1] at hlen
    obtain ⟨f, hf⟩ := List.length_eq_one.mp hlen
    refine ⟨f, hf, ?_⟩
    rw [hf] at hcalls
    simp [Block._load, hcalls]
  · intro hgt
    have hmap : ((sourceIds store dyn).map env).length > 1 := by
      simpa [hlen] using hgt
    simp only [Block._load, hcalls]
    rw [if_pos hmap]

/-- Witness for C2 at a two-source block: the load handler returns the
ordered list of both source results. -/
theorem C2_witness :
    (sourceIds exStore2 [0, 1]).length = ([0, 1] : List Nat).length ∧
    (([0, 1] : List Nat).length = 1 → ∃ f, sourceIds exStore2 [0, 1] = [f] ∧
      Block._load (fun n => n * 10) exStore2 [0, 1] =
        Except.ok ([f], Block.LoadResult.single (f * 10))) ∧
    (1 < ([0, 1] : List Nat).length →
      Block._load (fun n => n * 10) exStore2 [0, 1] =
        Except.ok (sourceIds exStore2 [0, 1],
          Block.LoadResult.many ((sourceIds exStore2 [0, 1]).map (fun n => n * 10)))) :=
  C2_load_results (fun n => n * 10) exStore2 exAttrs [0, 1] rfl (by decide)

/-- C9: the unguarded `outputs[0]` in the load handler is in range whenever
the handler was registered at all — `start()` registers it only when the
selected-wrapper list is non-empty, and under that precondition `_load`
always succeeds; on the empty list the out-of-range branch would raise
`IndexError`. -/
theorem C9_load_guard {α : Type} (env : Nat → α) (store : List Wrapper)
    (attrs : List (String × Attr)) (dyn : List Nat)
    (hdyn : dyn = Block.dynReloading store (Block.discover attrs))
    (hne : dyn ≠ []) :
    (∃ r, Block._load env store dyn = Except.ok r) ∧
    Block._load env store [] = Except.error GroError.indexError := by
  refine ⟨?_, rfl⟩
  have hall : ∀ i ∈ dyn, Block.hasSource store i = true := by
    intro i hi
    rw [hdyn] at hi
    exact (List.mem_filter.mp hi).2
  obtain ⟨hcalls, hlen⟩ := loadCalls_sources dyn store hall
  by_cases hgt : ((sourceIds store dyn).map env).length > 1
  · exact ⟨_, by simp only [Block._load, hcalls]; rw [if_pos hgt]⟩
  · cases hsrc : sourceIds store dyn with
    | nil =>
      rw [hsrc] at hlen
      exact absurd (List.length_eq_zero.mp hlen.symm) hne
    | cons f fs =>
      rw [hsrc] at hgt hcalls
      refine ⟨((f :: fs), Block.LoadResult.single (env f)), ?_⟩
      simp only [Block._load, hcalls]
      rw [if_neg hgt]
      simp [List.map_cons]

/-- Witness for C9 at a one-source block: `_load` succeeds, and the empty
selection would have raised `IndexError`. -/
theorem C9_witness :
    (∃ r, Block._load (fun n => n + 1) exStore [1] = Except.ok r) ∧
    Block._load (fun n => n + 1) exStore [] = Except.error GroError.indexError :=
  C9_load_guard (fun n => n + 1) exStore exAttrs [1] rfl (by decide)

/-! ## Inversion and error-classification lemmas -/

theorem lookupWrapper_ok {store : List Wrapper} {i : Nat} {w : Wrapper}
    (h : lookupWrapper store i = Except.ok w) : store.get? i = some w := by
  unfold lookupWrapper at h
  cases hgw : store.get? i with
  | none => rw [hgw] at h; exact Except.noConfusion h
  | some w0 => rw [hgw] at h; injection h with hh; rw [← hh]

theorem lookupWrapper_error {store : List Wrapper} {i : Nat} {e : GroError}
    (h : lookupWrapper store i = Except.error e) : e = GroError.attributeError := by
  unfold lookupWrapper at h
  cases hgw : store.get? i with
  | none => rw [hgw] at h; injection h with hh; rw [← hh]
  | some w0 => rw [hgw] at h; exact Except.noConfusion h

theorem derefWidget_error {g : Option Nat} {e : GroError}
    (h : derefWidget g = Except.error e) : e = GroError.attributeError := by
  cases g with
  | none => injection h with hh; rw [← hh]
  | some wid => exact Except.noConfusion h

theorem resolveRef_error {store : List Wrapper} {r : Ref} {e : GroError}
    (h : Block.resolveRef store r = Except.error e) : e = GroError.attributeError := by
  cases r with
  | wrapperRef i =>
    simp only [Block.resolveRef] at h
    cases hlk : lookupWrapper store i with
    | error e0 =>
      rw [hlk] at h
      injection h with hh
      rw [← hh]
      exact lookupWrapper_error hlk
    | ok w =>
      rw [hlk] at h
      simp only at h
      cases hg : w.gr_object with
      | none => rw [hg] at h; injection h with hh; rw [← hh]
      | some wid => rw [hg] at h; exact Except.noConfusion h
  | widgetRef wid =>
    simp only [Block.resolveRef] at h
    injection h with hh
    rw [← hh]

theorem resolveRefs_error : ∀ (rs : List Ref) (store : List Wrapper) (e : GroError),
    Block.resolveRefs store rs = Except.error e → e = GroError.attributeError := by
  intro rs
  induction rs with
  | nil => intro store e h; exact Except.noConfusion h
  | cons r rest ih =>
    intro store e h
    simp only [Block.resolveRefs] at h
    cases hr : Block.resolveRef store r with
    | error e0 =>
      rw [hr] at h
      injection h with hh
      rw [← hh]
      exact resolveRef_error hr
    | ok r' =>
      rw [hr] at h
      simp only at h
      cases hrest : Block.resolveRefs store rest with
      | error e0 =>
        rw [hrest] at h
        injection h with hh
        rw [← hh]
        exact ih store e0 hrest
      | ok rest' => rw [hrest] at h; exact Except.noConfusion h

theorem resolveSpec_error {store : List Wrapper} {s : ListenerSpec} {e : GroError}
    (h : Block.resolveSpec store s = Except.error e) : e = GroError.attributeError := by
  obtain ⟨ins, outs, oth⟩ := s
  cases ins with
  | some refs =>
    cases outs with
    | some orefs =>
      simp only [Block.resolveSpec] at h
      cases hrr : Block.resolveRefs store refs with
      | error e0 =>
        simp only [hrr] at h
        injection h with hh
        rw [← hh]
        exact resolveRefs_error refs store e0 hrr
      | ok refs' =>
        simp only [hrr] at h
        cases hor : Block.resolveRefs store orefs with
        | error e0 =>
          simp only [hor] at h
          injection h with hh
          rw [← hh]
          exact resolveRefs_error orefs store e0 hor
        | ok orefs' => simp only [hor] at h; exact Except.noConfusion h
    | none =>
      simp only [Block.resolveSpec] at h
      cases hrr : Block.resolveRefs store refs with
      | error e0 =>
        simp only [hrr] at h
        injection h with hh
        rw [← hh]
        exact resolveRefs_error refs store e0 hrr
      | ok refs' => simp only [hrr] at h; exact Except.noConfusion h
  | none =>
    cases outs with
    | some orefs =>
      simp only [Block.resolveSpec] at h
      cases hor : Block.resolveRefs store orefs with
      | error e0 =>
        simp only [hor] at h
        injection h with hh
        rw [← hh]
        exact resolveRefs_error orefs store e0 hor
      | ok orefs' => simp only [hor] at h; exact Except.noConfusion h
    | none =>
      simp only [Block.resolveSpec] at h
      exact Except.noConfusion h

theorem wireSpecs_error : ∀ (specs : List ListenerSpec) (store : List Wrapper)
    (target : Block.EventTarget) (counter : Nat) (e : GroError),
    Block.wireSpecs store target counter specs = Except.error e →
    e = GroError.attributeError := by
  intro specs
  induction specs with
  | nil => intro store target counter e h; exact Except.noConfusion h
  | cons s rest ih =>
    intro store target counter e h
    simp only [Block.wireSpecs] at h
    cases hres : Block.resolveSpec store s with
    | error e0 =>
      rw [hres] at h
      injection h with hh
      rw [← hh]
      exact resolveSpec_error hres
    | ok s' =>
      rw [hres] at h
      simp only at h
      cases hrec : Block.wireSpecs store (Block.EventTarget.thenOf counter) (counter + 1)
          rest with
      | error e0 =>
        rw [hrec] at h
        injection h with hh
        rw [← hh]
        exact ih store _ _ e0 hrec
      | ok t =>
        obtain ⟨rest', regs, c'⟩ := t
        rw [hrec] at h
        exact Except.noConfusion h

theorem wireEvents_error : ∀ (entries : List (String × List ListenerSpec))
    (store : List Wrapper) (grObj : Option Nat) (counter : Nat) (e : GroError),
    Block.wireEvents store grObj counter entries = Except.error e →
    e = GroError.attributeError := by
  intro entries
  induction entries with
  | nil => intro store grObj counter e h; exact Except.noConfusion h
  | cons p rest ih =>
    obtain ⟨e0, sp0⟩ := p
    intro store grObj counter e h
    simp only [Block.wireEvents] at h
    cases hd : derefWidget grObj with
    | error e1 =>
      rw [hd] at h
      injection h with hh
      rw [← hh]
      exact derefWidget_error hd
    | ok wid =>
      rw [hd] at h
      simp only at h
      cases hws : Block.wireSpecs store (Block.EventTarget.widgetEvent wid e0) counter
          sp0 with
      | error e1 =>
        rw [hws] at h
        injection h with hh
        rw [← hh]
        exact wireSpecs_error sp0 store _ counter e1 hws
      | ok t1 =>
        obtain ⟨sp0', regs1, c1⟩ := t1
        rw [hws] at h
        simp only at h
        cases hwe : Block.wireEvents store grObj c1 rest with
        | error e1 =>
          rw [hwe] at h
          injection h with hh
          rw [← hh]
          exact ih store grObj c1 e1 hwe
        | ok t2 =>
          obtain ⟨rest', regs2, c2⟩ := t2
          rw [hwe] at h
          exact Except.noConfusion h

theorem initListeners_error : ∀ (inst : List Nat) (store : List Wrapper) (c : Nat)
    (e : GroError), Block._init_listeners store c inst = Except.error e →
    e = GroError.attributeError := by
  intro inst
  induction inst with
  | nil => intro store c e h; exact Except.noConfusion h
  | cons i rest ih =>
    intro store c e h
    simp only [Block._init_listeners] at h
    cases hlk : lookupWrapper store i with
    | error e0 =>
      rw [hlk] at h
      injection h with hh
      rw [← hh]
      exact lookupWrapper_error hlk
    | ok w =>
      rw [hlk] at h
      simp only at h
      cases hwe : Block.wireEvents store w.gr_object c w.listeners with
      | error e0 =>
        rw [hwe] at h
        injection h with hh
        rw [← hh]
        exact wireEvents_error w.listeners store w.gr_object c e0 hwe
      | ok t1 =>
        obtain ⟨l', regs1, c1⟩ := t1
        rw [hwe] at h
        simp only at h
        cases hrec : Block._init_listeners (store.set i { w with listeners := l' }) c1
            rest with
        | error e0 =>
          rw [hrec] at h
          injection h with hh
          rw [← hh]
          exact ih _ c1 e0 hrec
        | ok t2 =>
          obtain ⟨store', regs2, c2⟩ := t2
          rw [hrec] at h
          exact Except.noConfusion h

theorem loadOutputs_error : ∀ (dyn : List Nat) (store : List Wrapper) (e : GroError),
    Block.loadOutputs store dyn = Except.error e → e = GroError.attributeError := by
  intro dyn
  induction dyn with
  | nil => intro store e h; exact Except.noConfusion h
  | cons i rest ih =>
    intro store e h
    simp only [Block.loadOutputs] at h
    cases hlk : lookupWrapper store i with
    | error e0 =>
      rw [hlk] at h
      injection h with hh
      rw [← hh]
      exact lookupWrapper_error hlk
    | ok w =>
      rw [hlk] at h
      simp only at h
      cases hd : derefWidget w.gr_object with
      | error e0 =>
        rw [hd] at h
        injection h with hh
        rw [← hh]
        exact derefWidget_error hd
      | ok wid =>
        rw [hd] at h
        simp only at h
        cases hrec : Block.loadOutputs store rest with
        | error e0 =>
          rw [hrec] at h
          injection h with hh
          rw [← hh]
          exact ih store e0 hrec
        | ok rest' => rw [hrec] at h; exact Except.noConfusion h

theorem callWrappers_error : ∀ (calls : List Nat) (store : List Wrapper) (fresh : Nat)
    (e : GroError), Block.callWrappers store fresh calls = Except.error e →
    e = GroError.attributeError := by
  intro calls
  induction calls with
  | nil => intro store fresh e h; exact Except.noConfusion h
  | cons i rest ih =>
    intro store fresh e h
    simp only [Block.callWrappers] at h
    cases hlk : lookupWrapper store i with
    | error e0 =>
      rw [hlk] at h
      injection h with hh
      rw [← hh]
      exact lookupWrapper_error hlk
    | ok w =>
      rw [hlk] at h
      simp only at h
      exact ih _ _ e h

/-! ## Preservation (frame) lemmas -/

theorem callWrappers_length : ∀ (calls : List Nat) (store : List Wrapper) (fresh : Nat)
    (store' : List Wrapper) (fresh' : Nat),
    Block.callWrappers store fresh calls = Except.ok (store', fresh') →
    store'.length = store.length := by
  intro calls
  induction calls with
  | nil =>
    intro store fresh store' fresh' h
    simp only [Block.callWrappers, Except.ok.injEq, Prod.mk.injEq] at h
    rw [← h.1]
  | cons i rest ih =>
    intro store fresh store' fresh' h
    simp only [Block.callWrappers] at h
    cases hlk : lookupWrapper store i with
    | error e0 => rw [hlk] at h; exact Except.noConfusion h
    | ok w =>
      rw [hlk] at h
      simp only at h
      rw [ih _ _ _ _ h, List.length_set]

theorem callWrappers_not_mem : ∀ (calls : List Nat) (store : List Wrapper) (fresh : Nat)
    (store' : List Wrapper) (fresh' : Nat),
    Block.callWrappers store fresh calls = Except.ok (store', fresh') →
    ∀ j, j ∉ calls → store'.get? j = store.get? j := by
  intro calls
  induction calls with
  | nil =>
    intro store fresh store' fresh' h j _
    simp only [Block.callWrappers, Except.ok.injEq, Prod.mk.injEq] at h
    rw [← h.1]
  | cons i rest ih =>
    intro store fresh store' fresh' h j hj
    simp only [Block.callWrappers] at h
    cases hlk : lookupWrapper store i with
    | error e0 => rw [hlk] at h; exact Except.noConfusion h
    | ok w =>
      rw [hlk] at h
      simp only at h
      have hji : i ≠ j := fun hh => hj (hh ▸ List.mem_cons_self i rest)
      rw [ih _ _ _ _ h j (fun hh => hj (List.mem_cons_of_mem i hh)),
        List.get?_set_ne _ _ hji]

theorem grAt_set_listeners (store : List Wrapper) (i : Nat) (w : Wrapper)
    (l' : List (String × List ListenerSpec)) (hw : store.get? i = some w) :
    ∀ j, grAt (store.set i { w with listeners := l' }) j = grAt store j := by
  intro j
  by_cases hij : i = j
  · subst hij
    have hlt : i < store.length := (List.get?_eq_some.mp hw).1
    unfold grAt
    rw [List.get?_set_eq_of_lt _ hlt, hw]
    rfl
  · unfold grAt
    rw [List.get?_set_ne _ _ hij]

theorem initListeners_frame : ∀ (inst : List Nat) (store : List Wrapper) (c : Nat)
    (store' : List Wrapper) (regs : List Block.Registration) (c' : Nat),
    Block._init_listeners store c inst = Except.ok (store', regs, c') →
    store'.length = store.length ∧
    (∀ j, j ∉ inst → store'.get? j = store.get? j) ∧
    (∀ j, grAt store' j = grAt store j) := by
  intro inst
  induction inst with
  | nil =>
    intro store c store' regs c' h
    simp only [Block._init_listeners, Except.ok.injEq, Prod.mk.injEq] at h
    obtain ⟨h1, _, _⟩ := h
    subst h1
    exact ⟨rfl, fun j _ => rfl, fun j => rfl⟩
  | cons i rest ih =>
    intro store c store' regs c' h
    simp only [Block._init_listeners] at h
    cases hlk : lookupWrapper store i with
    | error e => rw [hlk] at h; exact Except.noConfusion h
    | ok w =>
      rw [hlk] at h
      simp only at h
      cases hwe : Block.wireEvents store w.gr_object c w.listeners with
      | error e => rw [hwe] at h; exact Except.noConfusion h
      | ok t1 =>
        obtain ⟨l', regs1, c1⟩ := t1
        rw [hwe] at h
        simp only at h
        cases hrec : Block._init_listeners (store.set i { w with listeners := l' }) c1
            rest with
        | error e => rw [hrec] at h; exact Except.noConfusion h
        | ok t2 =>
          obtain ⟨storeF, regs2, c2⟩ := t2
          rw [hrec] at h
          simp only [Except.ok.injEq, Prod.mk.injEq] at h
          obtain ⟨h1, _, _⟩ := h
          subst h1
          have hw : store.get? i = some w := lookupWrapper_ok hlk
          obtain ⟨ihL, ihF, ihG⟩ := ih _ c1 storeF regs2 c2 hrec
          refine ⟨by rw [ihL, List.length_set], ?_, ?_⟩
          · intro j hj
            have hji : i ≠ j := fun hh => hj (hh ▸ List.mem_cons_self i rest)
            rw [ihF j (fun hh => hj (List.mem_cons_of_mem i hh)),
              List.get?_set_ne _ _ hji]
          · intro j
            rw [ihG j, grAt_set_listeners store i w l' hw j]

theorem initListeners_not_ok : ∀ (inst : List Nat) (store : List Wrapper) (c i : Nat)
    (w : Wrapper), i ∈ inst → store.get? i = some w → w.gr_object = none →
    w.listeners ≠ [] → ∀ out, Block._init_listeners store c inst ≠ Except.ok out := by
  intro inst
  induction inst with
  | nil => intro store c i w hi _ _ _ out; exact absurd hi (List.not_mem_nil _)
  | cons i0 rest ih =>
    intro store c i w hi hw hgr hls out h
    simp only [Block._init_listeners] at h
    cases hlk : lookupWrapper store i0 with
    | error e => simp only [hlk] at h; exact Except.noConfusion h
    | ok w0 =>
      simp only [hlk] at h
      by_cases hii : i = i0
      · subst hii
        have hww : w0 = w := Option.some.inj ((lookupWrapper_ok hlk).symm.trans hw)
        cases hl : w.listeners with
        | nil => exact hls hl
        | cons p ls =>
          obtain ⟨e0, sp0⟩ := p
          rw [hww, hgr, hl] at h
          simp only [Block.wireEvents, derefWidget] at h
          exact Except.noConfusion h
      · have hmem : i ∈ rest := by
          rcases List.mem_cons.mp hi with hh | hh
          · exact absurd hh hii
          · exact hh
        cases hwe : Block.wireEvents store w0.gr_object c w0.listeners with
        | error e => simp only [hwe] at h; exact Except.noConfusion h
        | ok t1 =>
          obtain ⟨l', regs1, c1⟩ := t1
          simp only [hwe] at h
          cases hrec : Block._init_listeners (store.set i0 { w0 with listeners := l' })
              c1 rest with
          | error e => simp only [hrec] at h; exact Except.noConfusion h
          | ok t2 =>
            refine ih (store.set i0 { w0 with listeners := l' }) c1 i w hmem ?_ hgr hls
              t2 hrec
            rw [List.get?_set_ne _ _ (fun hh => hii hh.symm)]
            exact hw

theorem loadOutputs_not_ok : ∀ (dyn : List Nat) (store : List Wrapper) (i : Nat)
    (w : Wrapper), i ∈ dyn → store.get? i = some w → w.gr_object = none →
    ∀ out, Block.loadOutputs store dyn ≠ Except.ok out := by
  intro dyn
  induction dyn with
  | nil => intro store i w hi _ _ out; exact absurd hi (List.not_mem_nil _)
  | cons j rest ih =>
    intro store i w hi hw hgr out h
    simp only [Block.loadOutputs] at h
    cases hlk : lookupWrapper store j with
    | error e => simp only [hlk] at h; exact Except.noConfusion h
    | ok wj =>
      simp only [hlk] at h
      by_cases hij : i = j
      · subst hij
        have hww : wj = w := Option.some.inj ((lookupWrapper_ok hlk).symm.trans hw)
        rw [hww, hgr] at h
        simp only [derefWidget] at h
        exact Except.noConfusion h
      · have hmem : i ∈ rest := by
          rcases List.mem_cons.mp hi with hh | hh
          · exact absurd hh hij
          · exact hh
        cases hd : derefWidget wj.gr_object with
        | error e => simp only [hd] at h; exact Except.noConfusion h
        | ok wid =>
          simp only [hd] at h
          cases hrec : Block.loadOutputs store rest with
          | error e => simp only [hrec] at h; exact Except.noConfusion h
          | ok rest' => exact ih store i w hmem hw hgr rest' hrec

/-- C7: a discovered wrapper that declares listeners or a data source but is
never called by `layout()` makes the wiring / load-binding step of `start()`
fail with an attribute error when it dereferences the still-unset
`gr_object`; before any call of a wrapper, its instantiated-widget reference
is null. -/
theorem C7_uninstantiated_reference (attrs : List (String × Attr)) (store : List Wrapper)
    (calls : List Nat) (i : Nat) (w : Wrapper)
    (hi : i ∈ Block.discover attrs)
    (hw : store.get? i = some w)
    (hgr : w.gr_object = none)
    (hdecl : w.listeners ≠ [] ∨ w._source.isSome = true)
    (hnc : i ∉ calls) :
    Block.start attrs store (Block.LayoutImpl.override calls) =
      Except.error GroError.attributeError ∧
    (∀ cls kwargs, (Wrapper.init cls kwargs).gr_object = none) := by
  refine ⟨?_, fun cls kwargs => rfl⟩
  simp only [Block.start, Block.runLayout]
  cases hcw : Block.callWrappers store 0 calls with
  | error e =>
    rw [callWrappers_error calls store 0 e hcw]
  | ok p =>
    obtain ⟨store1, fresh1⟩ := p
    simp only [hcw]
    have hw1 : store1.get? i = some w := by
      rw [callWrappers_not_mem calls store 0 store1 fresh1 hcw i hnc]
      exact hw
    cases hin : Block._init_listeners store1 0 (Block.discover attrs) with
    | error e =>
      rw [initListeners_error _ _ _ _ hin]
    | ok t =>
      obtain ⟨store2, regs, ch⟩ := t
      simp only [hin]
      rcases hdecl with hls | hsrc
      · exact absurd hin
          (initListeners_not_ok (Block.discover attrs) store1 0 i w hi hw1 hgr hls
            (store2, regs, ch))
      · have hhs : Block.hasSource store i = true := by
          unfold Block.hasSource
          rw [hw]
          simpa using hsrc
        have hidyn : i ∈ Block.dynReloading store (Block.discover attrs) :=
          List.mem_filter.mpr ⟨hi, hhs⟩
        have hdynne : (Block.dynReloading store (Block.discover attrs)).isEmpty = false := by
          cases hd : Block.dynReloading store (Block.discover attrs) with
          | nil => rw [hd] at hidyn; exact absurd hidyn (List.not_mem_nil _)
          | cons a l => rfl
        rw [hdynne, if_neg Bool.false_ne_true]
        obtain ⟨hL2, _hF2, hG2⟩ :=
          initListeners_frame (Block.discover attrs) store1 0 store2 regs ch hin
        cases hlo : Block.loadOutputs store2
            (Block.dynReloading store (Block.discover attrs)) with
        | error e =>
          rw [loadOutputs_error _ _ _ hlo]
        | ok outs =>
          have hga : grAt store2 i = grAt store1 i := hG2 i
          have hlt : i < store1.length := (List.get?_eq_some.mp hw1).1
          cases hg2 : store2.get? i with
          | none =>
            have hle := List.get?_eq_none.mp hg2
            rw [hL2] at hle
            exact absurd hlt (not_lt.mpr hle)
          | some w2 =>
            have hgr2 : w2.gr_object = none := by
              unfold grAt at hga
              rw [hg2, hw1] at hga
              simpa [hgr] using hga
            exact absurd hlo
              (loadOutputs_not_ok (Block.dynReloading store (Block.discover attrs))
                store2 i w2 hidyn hg2 hgr2 outs)

/-- Witness for C7: wrapper 0 declares a `click` listener but the overriding
`layout()` only calls wrapper 1, so `start()` fails with an attribute
error. -/
theorem C7_witness :
    Block.start exAttrs exStoreU (Block.LayoutImpl.override [1]) =
      Except.error GroError.attributeError ∧
    (∀ cls kwargs, (Wrapper.init cls kwargs).gr_object = none) :=
  C7_uninstantiated_reference exAttrs exStoreU [1] 0 exW0U (by decide) rfl rfl
    (Or.inl (by decide)) (by decide)

/-! ## Resolution soundness, congruence and transitivity (for C10) -/

theorem resolveRef_resolvedTo {store : List Wrapper} {r r' : Ref}
    (h : Block.resolveRef store r = Except.ok r') : refResolvedTo store r r' = true := by
  cases r with
  | wrapperRef i =>
    simp only [Block.resolveRef] at h
    cases hlk : lookupWrapper store i with
    | error e => simp only [hlk] at h; exact Except.noConfusion h
    | ok w =>
      simp only [hlk] at h
      cases hg : w.gr_object with
      | none => rw [hg] at h; exact Except.noConfusion h
      | some wid =>
        rw [hg] at h
        injection h with hh
        have hga : grAt store i = some wid := by
          unfold grAt
          rw [lookupWrapper_ok hlk]
          simpa using hg
        simp [refResolvedTo, hga, ← hh]
  | widgetRef wid => simp only [Block.resolveRef] at h; exact Except.noConfusion h

theorem resolveRefs_resolvedTo : ∀ (rs : List Ref) (store : List Wrapper) (rs' : List Ref),
    Block.resolveRefs store rs = Except.ok rs' → refsResolvedTo store rs rs' = true := by
  intro rs
  induction rs with
  | nil =>
    intro store rs' h
    simp only [Block.resolveRefs, Except.ok.injEq] at h
    subst h
    rfl
  | cons r rest ih =>
    intro store rs' h
    simp only [Block.resolveRefs] at h
    cases hr : Block.resolveRef store r with
    | error e => simp only [hr] at h; exact Except.noConfusion h
    | ok r0 =>
      simp only [hr] at h
      cases hrest : Block.resolveRefs store rest with
      | error e => simp only [hrest] at h; exact Except.noConfusion h
      | ok rest0 =>
        simp only [hrest, Except.ok.injEq] at h
        subst h
        simp [refsResolvedTo, resolveRef_resolvedTo hr, ih store rest0 hrest]

theorem resolveSpec_specMutated {store : List Wrapper} {s s' : ListenerSpec}
    (h : Block.resolveSpec store s = Except.ok s') : specMutated store s s' = true := by
  obtain ⟨ins, outs, oth⟩ := s
  cases ins with
  | some refs =>
    cases outs with
    | some orefs =>
      simp only [Block.resolveSpec] at h
      cases hrr : Block.resolveRefs store refs with
      | error e => simp only [hrr] at h; exact Except.noConfusion h
      | ok refs' =>
        simp only [hrr] at h
        cases hor : Block.resolveRefs store orefs with
        | error e => simp only [hor] at h; exact Except.noConfusion h
        | ok orefs' =>
          simp only [hor, Except.ok.injEq] at h
          subst h
          simp [specMutated, refsOptResolvedTo, resolveRefs_resolvedTo _ _ _ hrr,
            resolveRefs_resolvedTo _ _ _ hor]
    | none =>
      simp only [Block.resolveSpec] at h
      cases hrr : Block.resolveRefs store refs with
      | error e => simp only [hrr] at h; exact Except.noConfusion h
      | ok refs' =>
        simp only [hrr, Except.ok.injEq] at h
        subst h
        simp [specMutated, refsOptResolvedTo, resolveRefs_resolvedTo _ _ _ hrr]
  | none =>
    cases outs with
    | some orefs =>
      simp only [Block.resolveSpec] at h
      cases hor : Block.resolveRefs store orefs with
      | error e => simp only [hor] at h; exact Except.noConfusion h
      | ok orefs' =>
        simp only [hor, Except.ok.injEq] at h
        subst h
        simp [specMutated, refsOptResolvedTo, resolveRefs_resolvedTo _ _ _ hor]
    | none =>
      simp only [Block.resolveSpec, Except.ok.injEq] at h
      subst h
      simp [specMutated, refsOptResolvedTo]

theorem wireSpecs_specsMutated : ∀ (specs : List ListenerSpec) (store : List Wrapper)
    (target : Block.EventTarget) (counter : Nat) (specs' : List ListenerSpec)
    (regs : List Block.Registration) (c' : Nat),
    Block.wireSpecs store target counter specs = Except.ok (specs', regs, c') →
    specsMutated store specs specs' = true := by
  intro specs
  induction specs with
  | nil =>
    intro store target counter specs' regs c' h
    simp only [Block.wireSpecs, Except.ok.injEq, Prod.mk.injEq] at h
    obtain ⟨h1, _, _⟩ := h
    rw [← h1]
    rfl
  | cons s rest ih =>
    intro store target counter specs' regs c' h
    simp only [Block.wireSpecs] at h
    cases hres : Block.resolveSpec store s with
    | error e => simp only [hres] at h; exact Except.noConfusion h
    | ok s0 =>
      simp only [hres] at h
      cases hrec : Block.wireSpecs store (Block.EventTarget.thenOf counter) (counter + 1)
          rest with
      | error e => simp only [hrec] at h; exact Except.noConfusion h
      | ok t =>
        obtain ⟨rest0, regs0, c0⟩ := t
        simp only [hrec, Except.ok.injEq, Prod.mk.injEq] at h
        obtain ⟨h1, _, _⟩ := h
        subst h1
        simp [specsMutated, resolveSpec_specMutated hres,
          ih store (Block.EventTarget.thenOf counter) (counter + 1) rest0 regs0 c0 hrec]

theorem wireEvents_listenersMutated : ∀ (entries : List (String × List ListenerSpec))
    (store : List Wrapper) (grObj : Option Nat) (counter : Nat)
    (entries' : List (String × List ListenerSpec)) (regs : List Block.Registration)
    (c' : Nat),
    Block.wireEvents store grObj counter entries = Except.ok (entries', regs, c') →
    listenersMutated store entries entries' = true := by
  intro entries
  induction entries with
  | nil =>
    intro store grObj counter entries' regs c' h
    simp only [Block.wireEvents, Except.ok.injEq, Prod.mk.injEq] at h
    obtain ⟨h1, _, _⟩ := h
    rw [← h1]
    rfl
  | cons p rest ih =>
    obtain ⟨e0, sp0⟩ := p
    intro store grObj counter entries' regs c' h
    cases grObj with
    | none => simp [Block.wireEvents, derefWidget] at h
    | some wid =>
      simp only [Block.wireEvents, derefWidget] at h
      cases hws : Block.wireSpecs store (Block.EventTarget.widgetEvent wid e0) counter
          sp0 with
      | error e => simp only [hws] at h; exact Except.noConfusion h
      | ok t1 =>
        obtain ⟨sp0', regs1, c1⟩ := t1
        simp only [hws] at h
        cases hwe : Block.wireEvents store (some wid) c1 rest with
        | error e => simp only [hwe] at h; exact Except.noConfusion h
        | ok t2 =>
          obtain ⟨rest', regs2, c2⟩ := t2
          simp only [hwe, Except.ok.injEq, Prod.mk.injEq] at h
          obtain ⟨h1, _, _⟩ := h
          subst h1
          simp [listenersMutated,
            wireSpecs_specsMutated sp0 store (Block.EventTarget.widgetEvent wid e0)
              counter sp0' regs1 c1 hws,
            ih store (some wid) c1 rest' regs2 c2 hwe]

theorem refResolvedTo_congr {store1 store2 : List Wrapper}
    (hg : ∀ j, grAt store1 j = grAt store2 j) (r r' : Ref) :
    refResolvedTo store1 r r' = refResolvedTo store2 r r' := by
  cases r with
  | wrapperRef i => simp only [refResolvedTo, hg i]
  | widgetRef wid => rfl

theorem refsResolvedTo_congr {store1 store2 : List Wrapper}
    (hg : ∀ j, grAt store1 j = grAt store2 j) : ∀ (rs rs' : List Ref),
    refsResolvedTo store1 rs rs' = refsResolvedTo store2 rs rs' := by
  intro rs
  induction rs with
  | nil => intro rs'; cases rs' <;> rfl
  | cons r rest ih =>
    intro rs'
    cases rs' with
    | nil => rfl
    | cons r' rest' => simp only [refsResolvedTo, refResolvedTo_congr hg, ih]

theorem refsOptResolvedTo_congr {store1 store2 : List Wrapper}
    (hg : ∀ j, grAt store1 j = grAt store2 j) : ∀ (o o' : Option (List Ref)),
    refsOptResolvedTo store1 o o' = refsOptResolvedTo store2 o o' := by
  intro o o'
  cases o with
  | none => cases o' <;> rfl
  | some rs =>
    cases o' with
    | none => rfl
    | some rs' => exact refsResolvedTo_congr hg rs rs'

theorem specMutated_congr {store1 store2 : List Wrapper}
    (hg : ∀ j, grAt store1 j = grAt store2 j) (s s' : ListenerSpec) :
    specMutated store1 s s' = specMutated store2 s s' := by
  simp only [specMutated, refsOptResolvedTo_congr hg]

theorem specsMutated_congr {store1 store2 : List Wrapper}
    (hg : ∀ j, grAt store1 j = grAt store2 j) : ∀ (xs ys : List ListenerSpec),
    specsMutated store1 xs ys = specsMutated store2 xs ys := by
  intro xs
  induction xs with
  | nil => intro ys; cases ys <;> rfl
  | cons x xr ih =>
    intro ys
    cases ys with
    | nil => rfl
    | cons y yr => simp only [specsMutated, specMutated_congr hg, ih]

theorem listenersMutated_congr {store1 store2 : List Wrapper}
    (hg : ∀ j, grAt store1 j = grAt store2 j) :
    ∀ (xs ys : List (String × List ListenerSpec)),
    listenersMutated store1 xs ys = listenersMutated store2 xs ys := by
  intro xs
  induction xs with
  | nil => intro ys; cases ys <;> rfl
  | cons x xr ih =>
    obtain ⟨e, sp⟩ := x
    intro ys
    cases ys with
    | nil => rfl
    | cons y yr =>
      obtain ⟨e', sp'⟩ := y
      simp only [listenersMutated, specsMutated_congr hg, ih]

theorem refsResolvedTo_trans {store : List Wrapper} : ∀ (rs rs' rs'' : List Ref),
    refsResolvedTo store rs rs' = true → refsResolvedTo store rs' rs'' = true →
    refsResolvedTo store rs rs'' = true := by
  intro rs
  induction rs with
  | nil =>
    intro rs' rs'' h1 h2
    cases rs' with
    | nil => exact h2
    | cons _ _ => simp [refsResolvedTo] at h1
  | cons r rest ih =>
    intro rs' rs'' h1 h2
    cases rs' with
    | nil => simp [refsResolvedTo] at h1
    | cons r' rest' =>
      simp only [refsResolvedTo, Bool.and_eq_true] at h1
      obtain ⟨hr, hrest⟩ := h1
      cases r with
      | widgetRef _ => simp [refResolvedTo] at hr
      | wrapperRef i =>
        simp only [refResolvedTo] at hr
        cases hga : grAt store i with
        | none => rw [hga] at hr; simp at hr
        | some wid =>
          rw [hga] at hr
          have hr' : r' = Ref.widgetRef wid := by simpa using hr
          subst hr'
          cases rs'' with
          | nil => simp [refsResolvedTo] at h2
          | cons r'' rest'' =>
            simp only [refsResolvedTo, Bool.and_eq_true] at h2
            obtain ⟨hr2, _⟩ := h2
            simp [refResolvedTo] at hr2

theorem refsOptResolvedTo_trans {store : List Wrapper} : ∀ (a b c : Option (List Ref)),
    refsOptResolvedTo store a b = true → refsOptResolvedTo store b c = true →
    refsOptResolvedTo store a c = true := by
  intro a b c h1 h2
  cases a with
  | none =>
    cases b with
    | none =>
      cases c with
      | none => rfl
      | some _ => simp [refsOptResolvedTo] at h2
    | some _ => simp [refsOptResolvedTo] at h1
  | some rs =>
    cases b with
    | none => simp [refsOptResolvedTo] at h1
    | some rs' =>
      cases c with
      | none => simp [refsOptResolvedTo] at h2
      | some rs'' => exact refsResolvedTo_trans rs rs' rs'' h1 h2

theorem specMutated_trans {store : List Wrapper} {a b c : ListenerSpec}
    (h1 : specMutated store a b = true) (h2 : specMutated store b c = true) :
    specMutated store a c = true := by
  simp only [specMutated, Bool.and_eq_true, beq_iff_eq] at h1 h2 ⊢
  obtain ⟨⟨hi1, ho1⟩, hoth1⟩ := h1
  obtain ⟨⟨hi2, ho2⟩, hoth2⟩ := h2
  exact ⟨⟨refsOptResolvedTo_trans _ _ _ hi1 hi2, refsOptResolvedTo_trans _ _ _ ho1 ho2⟩,
    hoth2.trans hoth1⟩

theorem specsMutated_trans {store : List Wrapper} : ∀ (xs ys zs : List ListenerSpec),
    specsMutated store xs ys = true → specsMutated store ys zs = true →
    specsMutated store xs zs = true := by
  intro xs
  induction xs with
  | nil =>
    intro ys zs h1 h2
    cases ys with
    | nil => exact h2
    | cons _ _ => simp [specsMutated] at h1
  | cons x xr ih =>
    intro ys zs h1 h2
    cases ys with
    | nil => simp [specsMutated] at h1
    | cons y yr =>
      cases zs with
      | nil => simp [specsMutated] at h2
      | cons z zr =>
        simp only [specsMutated, Bool.and_eq_true] at h1 h2 ⊢
        exact ⟨specMutated_trans h1.1 h2.1, ih yr zr h1.2 h2.2⟩

theorem listenersMutated_trans {store : List Wrapper} :
    ∀ (xs ys zs : List (String × List ListenerSpec)),
    listenersMutated store xs ys = true → listenersMutated store ys zs = true →
    listenersMutated store xs zs = true := by
  intro xs
  induction xs with
  | nil =>
    intro ys zs h1 h2
    cases ys with
    | nil => exact h2
    | cons _ _ => simp [listenersMutated] at h1
  | cons x xr ih =>
    obtain ⟨e, sp⟩ := x
    intro ys zs h1 h2
    cases ys with
    | nil => simp [listenersMutated] at h1
    | cons y yr =>
      obtain ⟨e', sp'⟩ := y
      cases zs with
      | nil => simp [listenersMutated] at h2
      | cons z zr =>
        obtain ⟨e'', sp''⟩ := z
        simp only [listenersMutated, Bool.and_eq_true, beq_iff_eq] at h1 h2 ⊢
        obtain ⟨⟨he1, hs1⟩, hr1⟩ := h1
        obtain ⟨⟨he2, hs2⟩, hr2⟩ := h2
        exact ⟨⟨he1.trans he2, specsMutated_trans _ _ _ hs1 hs2⟩, ih yr zr hr1 hr2⟩

theorem initListeners_mutated : ∀ (inst : List Nat) (store : List Wrapper) (c : Nat)
    (store' : List Wrapper) (regs : List Block.Registration) (c' : Nat),
    Block._init_listeners store c inst = Except.ok (store', regs, c') →
    ∀ i, i ∈ inst → ∀ w w', store.get? i = some w → store'.get? i = some w' →
      listenersMutated store w.listeners w'.listeners = true ∧
      w'.gr_object = w.gr_object ∧ w'._source = w._source ∧
      w'.gr_object_cls = w.gr_object_cls ∧ w'.init_kwargs = w.init_kwargs := by
  intro inst
  induction inst with
  | nil =>
    intro store c store' regs c' h i hi
    exact absurd hi (List.not_mem_nil _)
  | cons i0 rest ih =>
    intro store c store' regs c' h i hi w w' hw hw'
    simp only [Block._init_listeners] at h
    cases hlk : lookupWrapper store i0 with
    | error e => simp only [hlk] at h; exact Except.noConfusion h
    | ok w0 =>
      simp only [hlk] at h
      cases hwe : Block.wireEvents store w0.gr_object c w0.listeners with
      | error e => simp only [hwe] at h; exact Except.noConfusion h
      | ok t1 =>
        obtain ⟨l', regs1, c1⟩ := t1
        simp only [hwe] at h
        cases hrec : Block._init_listeners (store.set i0 { w0 with listeners := l' })
            c1 rest with
        | error e => simp only [hrec] at h; exact Except.noConfusion h
        | ok t2 =>
          obtain ⟨storeF, regs2, c2⟩ := t2
          simp only [hrec, Except.ok.injEq, Prod.mk.injEq] at h
          obtain ⟨h1, _, _⟩ := h
          subst h1
          have hw0 : store.get? i0 = some w0 := lookupWrapper_ok hlk
          have hgrmid : ∀ j,
              grAt (store.set i0 { w0 with listeners := l' }) j = grAt store j :=
            grAt_set_listeners store i0 w0 l' hw0
          have hmutHead : listenersMutated store w0.listeners l' = true :=
            wireEvents_listenersMutated w0.listeners store w0.gr_object c l' regs1 c1 hwe
          by_cases hii : i = i0
          · subst hii
            have hww : w0 = w := Option.some.inj (hw0.symm.trans hw)
            subst hww
            have hlt : i < store.length := (List.get?_eq_some.mp hw0).1
            have hmid : (store.set i { w0 with listeners := l' }).get? i =
                some { w0 with listeners := l' } := List.get?_set_eq_of_lt _ hlt
            by_cases hmem : i ∈ rest
            · obtain ⟨hmut2, hg2, hs2, hc2, hk2⟩ :=
                ih _ c1 storeF regs2 c2 hrec i hmem { w0 with listeners := l' } w'
                  hmid hw'
              rw [listenersMutated_congr hgrmid] at hmut2
              exact ⟨listenersMutated_trans _ _ _ hmutHead hmut2, hg2, hs2, hc2, hk2⟩
            · have hframe := (initListeners_frame rest _ c1 storeF regs2 c2 hrec).2.1
                i hmem
              rw [hframe, hmid] at hw'
              have hww' : w' = { w0 with listeners := l' } := (Option.some.inj hw').symm
              subst hww'
              exact ⟨hmutHead, rfl, rfl, rfl, rfl⟩
          · have hmem : i ∈ rest := by
              rcases List.mem_cons.mp hi with hh | hh
              · exact absurd hh hii
              · exact hh
            have hmidw : (store.set i0 { w0 with listeners := l' }).get? i = some w := by
              rw [List.get?_set_ne _ _ (fun hh => hii hh.symm)]
              exact hw
            obtain ⟨hmut2, hg2, hs2, hc2, hk2⟩ :=
              ih _ c1 storeF regs2 c2 hrec i hmem w w' hmidw hw'
            rw [listenersMutated_congr hgrmid] at hmut2
            exact ⟨hmut2, hg2, hs2, hc2, hk2⟩

/-- C10: listener wiring mutates the stored listener-spec records in place —
for every spec, present `inputs`/`outputs` entries have their `Wrapper`
references replaced by the referenced wrappers' instantiated widgets, every
other key is retained unchanged, and the wrapper's event structure and
remaining fields are untouched. -/
theorem C10_wiring_mutates_in_place (store store' : List Wrapper) (instances : List Nat)
    (counter c' : Nat) (regs : List Block.Registration)
    (h : Block._init_listeners store counter instances = Except.ok (store', regs, c'))
    (i : Nat) (hi : i ∈ instances) (w w' : Wrapper)
    (hw : store.get? i = some w) (hw' : store'.get? i = some w') :
    listenersMutated store w.listeners w'.listeners = true ∧
    w'.gr_object = w.gr_object ∧ w'._source = w._source ∧
    w'.gr_object_cls = w.gr_object_cls ∧ w'.init_kwargs = w.init_kwargs :=
  initListeners_mutated instances store counter store' regs c' h i hi w w' hw hw'

/-- Witness for C10: after wiring the two-wrapper example block, wrapper 0's
`click` specs hold widget references in place of wrapper references while all
other state is unchanged. -/
theorem C10_witness :
    listenersMutated exStore exW0.listeners exW0R.listeners = true ∧
    exW0R.gr_object = exW0.gr_object ∧ exW0R._source = exW0._source ∧
    exW0R.gr_object_cls = exW0.gr_object_cls ∧ exW0R.init_kwargs = exW0.init_kwargs :=
  C10_wiring_mutates_in_place exStore [exW0R, exW1] [0, 1] 0 2
    [⟨Block.EventTarget.widgetEvent 10 "click", exSpec1R, 0⟩,
     ⟨Block.EventTarget.thenOf 0, exSpec2, 1⟩]
    rfl 0 (by simp) exW0 exW0R rfl rfl

end Gro
